import Mathlib

/-!
# Backend selection core of upm (`internal/backends/backends.go`)

A shallow embedding of the backend-selection logic: the language matcher
`matchesLanguage` and the resolver `GetBackend`.  The filesystem is an
explicit read-only probe (the `util.Exists` / `util.PatternExists`
collaborators), and the fatal `util.Die` exits are modelled as `Except`
errors carrying the message kind.
-/

/-- The fields of `api.LanguageBackend` read by the selection logic in
`backends.go`: `Name`, `Alias`, `Specfile`, `Lockfile`, `FilenamePatterns`.
All other fields of the Go struct are irrelevant to backend selection. -/
structure LanguageBackend where
  name : String
  aliasName : String
  specfile : String
  lockfile : String
  filenamePatterns : List String
deriving DecidableEq, Repr

/-- The filesystem-probe collaborator: `util.Exists` and
`util.PatternExists`, read-only checks against the project directory. -/
structure FS where
  fsExists : String → Bool
  patternExists : String → Bool

/-- Go's `strings.Split` specialised to the one-character separator `"-"`
used by `matchesLanguage`, acting on the character list of the string.
As in Go, splitting the empty string yields `[[]]` (one empty part). -/
def splitDash : List Char → List (List Char)
  | [] => [[]]
  | c :: rest =>
    let ps := splitDash rest
    if c = '-' then [] :: ps
    else
      match ps with
      | [] => [[c]]
      | p :: ps' => (c :: p) :: ps'

/-- Result of `strings.Split s "-"`: the hyphen-separated parts of `s`.
As in Go, `splitParts "" = [""]`. -/
def splitParts (s : String) : List String :=
  (splitDash s.toList).map (fun cs => String.mk cs)

/-- Function `matchesLanguage` from `backends.go`: checks whether a language backend
matches a value for the `--lang` argument.  Every hyphen-separated part of
`language` must occur among the parts of `b.name`; failing that, every part
must occur among the parts of `b.aliasName`.  The Go set
`map[string]bool` of parts is modelled as list membership. -/
def matchesLanguage (b : LanguageBackend) (language : String) : Bool :=
  let bParts := splitParts b.name
  let checkAlias := (splitParts language).any (fun lPart => !(bParts.contains lPart))
  if checkAlias then
    let aParts := splitParts b.aliasName
    (splitParts language).all (fun lPart => aParts.contains lPart)
  else
    true

/-- The two fatal exits of `GetBackend`, distinguished by their messages. -/
inductive ResolveError where
  | unknownLanguage (language : String)
  | noLanguageDetected
deriving DecidableEq, Repr

/-- The message `util.Die` prints for each error:
`"no such language: %s"` and
`"could not autodetect a language for your project"`. -/
def errorMessage : ResolveError → String
  | .unknownLanguage l => "no such language: " ++ l
  | .noLanguageDetected => "could not autodetect a language for your project"

/-- First loop of autodetection in `GetBackend`: the first backend whose
specfile AND lockfile both exist. -/
def findStrong (backends : List LanguageBackend) (fs : FS) : Option LanguageBackend :=
  backends.find? (fun b => fs.fsExists b.specfile && fs.fsExists b.lockfile)

/-- Second loop of autodetection in `GetBackend`: the first backend whose
specfile OR lockfile exists. -/
def findPartial (backends : List LanguageBackend) (fs : FS) : Option LanguageBackend :=
  backends.find? (fun b => fs.fsExists b.specfile || fs.fsExists b.lockfile)

/-- Third loop of autodetection in `GetBackend`: the first backend with a
filename pattern matching an existing file. -/
def findPattern (backends : List LanguageBackend) (fs : FS) : Option LanguageBackend :=
  backends.find? (fun b => b.filenamePatterns.any (fun p => fs.patternExists p))

/-- The three autodetection loops of `GetBackend`, in source order: a hit in
an earlier loop returns before a later loop runs. -/
def autodetect (backends : List LanguageBackend) (fs : FS) : Option LanguageBackend :=
  match findStrong backends fs with
  | some b => some b
  | none =>
    match findPartial backends fs with
    | some b => some b
    | none => findPattern backends fs

/-- Function `GetBackend` from `backends.go`.  With a non-empty `language` the
registry is first filtered through `matchesLanguage` (zero matches dies with
"no such language", exactly one match returns immediately); autodetection
then runs over the working list, and on no hit the empty-hint case dies with
"could not autodetect" while the narrowed case returns the first filtered
backend. -/
def getBackend (registry : List LanguageBackend) (language : String) (fs : FS) :
    Except ResolveError LanguageBackend :=
  if language = "" then
    match autodetect registry fs with
    | some b => Except.ok b
    | none => Except.error ResolveError.noLanguageDetected
  else
    match registry.filter (fun b => matchesLanguage b language) with
    | [] => Except.error (ResolveError.unknownLanguage language)
    | [b] => Except.ok b
    | b0 :: b1 :: rest =>
      match autodetect (b0 :: b1 :: rest) fs with
      | some b => Except.ok b
      | none => Except.ok b0

deriving instance DecidableEq for Except

/-! Concrete fixtures used by witnesses and counterexamples. -/

/-- A filesystem snapshot in which nothing exists. -/
def fsNone : FS := ⟨fun _ => false, fun _ => false⟩

/-- A second, syntactically distinct copy of the empty snapshot. -/
def fsNone' : FS := ⟨fun _ => false, fun _ => false⟩

/-- A filesystem snapshot in which every file exists (and no pattern hits). -/
def fsAll : FS := ⟨fun _ => true, fun _ => false⟩

/-- A snapshot where only `aBackend`'s specfile and lockfile exist. -/
def fsAOnly : FS := ⟨fun s => s == "a.spec" || s == "a.lock", fun _ => false⟩

/-- A snapshot where only d2's specfile and lockfile exist, and only the
pattern of d1 hits. -/
def fsD2Evidence : FS :=
  ⟨fun s => s == "d2.spec" || s == "d2.lock", fun p => p == "*.d1"⟩

/-- Fixture backend with a filename pattern. -/
def d1Backend : LanguageBackend := ⟨"d1", "", "d1.spec", "d1.lock", ["*.d1"]⟩

/-- Fixture backend. -/
def d2Backend : LanguageBackend := ⟨"d2", "", "d2.spec", "d2.lock", ["*.d2"]⟩

/-- Fixture backend whose name has two parts. -/
def abBackend : LanguageBackend := ⟨"a-b", "", "ab.spec", "ab.lock", []⟩

/-- Fixture backend whose name is a part of `abBackend`'s name. -/
def aBackend : LanguageBackend := ⟨"a", "", "a.spec", "a.lock", []⟩

/-- Fixture backend with a one-part name and no alias. -/
def pythonBackend : LanguageBackend := ⟨"python", "", "req.txt", "req.lock", []⟩

/-- Fixture backend sharing the part "x" with `xTwoBackend`. -/
def xOneBackend : LanguageBackend := ⟨"x-one", "", "one.spec", "one.lock", []⟩

/-- Fixture backend sharing the part "x" with `xOneBackend`. -/
def xTwoBackend : LanguageBackend := ⟨"x-two", "", "two.spec", "two.lock", []⟩

/-! Helper lemmas. -/

/-- A backend always matches its own full name: every part of the name
occurs among the name's parts. -/
theorem matchesLanguage_name_self (b : LanguageBackend) :
    matchesLanguage b b.name = true := by
  have h : (splitParts b.name).any
      (fun lPart => !((splitParts b.name).contains lPart)) = false := by
    rw [List.any_eq_false]
    intro x hx
    simp [List.elem_iff, hx]
  simp [matchesLanguage, h]

/-- Characterisation of the matcher: exact part-membership against the name,
or, failing that, against the alias. -/
theorem matchesLanguage_iff (b : LanguageBackend) (language : String) :
    matchesLanguage b language = true ↔
      ((∀ p ∈ splitParts language, p ∈ splitParts b.name) ∨
       (∀ p ∈ splitParts language, p ∈ splitParts b.aliasName)) := by
  simp only [matchesLanguage]
  cases h : (splitParts language).any
      (fun lPart => !((splitParts b.name).contains lPart)) with
  | false =>
    have hname : ∀ p ∈ splitParts language, p ∈ splitParts b.name := by
      intro p hp
      rw [List.any_eq_false] at h
      have := h p hp
      simpa [List.elem_iff] using this
    simp
    exact Or.inl hname
  | true =>
    have hnot : ¬∀ p ∈ splitParts language, p ∈ splitParts b.name := by
      rw [List.any_eq_true] at h
      obtain ⟨p, hp, hcon⟩ := h
      simp only [Bool.not_eq_true', ← Bool.not_eq_true, List.elem_iff] at hcon
      exact fun hall => hcon (hall p hp)
    simp [hnot, List.all_eq_true, List.elem_iff]

/-- Any backend returned by an autodetection pass is a member of the working
list. -/
theorem autodetect_mem {l : List LanguageBackend} {fs : FS} {b : LanguageBackend}
    (h : autodetect l fs = some b) : b ∈ l := by
  unfold autodetect at h
  cases hS : findStrong l fs with
  | some x =>
    rw [hS] at h
    cases h
    exact List.mem_of_find?_eq_some hS
  | none =>
    rw [hS] at h
    cases hP : findPartial l fs with
    | some x =>
      rw [hP] at h
      cases h
      exact List.mem_of_find?_eq_some hP
    | none =>
      rw [hP] at h
      exact List.mem_of_find?_eq_some h

/-- Autodetection finds nothing exactly when no backend of the working list
has any filesystem evidence. -/
theorem autodetect_eq_none_iff (l : List LanguageBackend) (fs : FS) :
    autodetect l fs = none ↔
      ∀ b ∈ l, fs.fsExists b.specfile = false ∧ fs.fsExists b.lockfile = false ∧
        ∀ p ∈ b.filenamePatterns, fs.patternExists p = false := by
  constructor
  · intro h b hb
    unfold autodetect at h
    cases hS : findStrong l fs with
    | some x => rw [hS] at h; cases h
    | none =>
      rw [hS] at h
      cases hP : findPartial l fs with
      | some x => rw [hP] at h; cases h
      | none =>
        rw [hP] at h
        rw [findPartial, List.find?_eq_none] at hP
        rw [findPattern, List.find?_eq_none] at h
        have h1 := hP b hb
        have h2 := h b hb
        simp only [Bool.or_eq_true, not_or, Bool.not_eq_true] at h1
        simp only [List.any_eq_true, not_exists, not_and, Bool.not_eq_true] at h2
        exact ⟨h1.1, h1.2, fun p hp => by simpa using h2 p hp⟩
  · intro h
    have hS : findStrong l fs = none := by
      rw [findStrong, List.find?_eq_none]
      intro b hb
      simp [(h b hb).1]
    have hP : findPartial l fs = none := by
      rw [findPartial, List.find?_eq_none]
      intro b hb
      simp [(h b hb).1, (h b hb).2.1]
    have hF : findPattern l fs = none := by
      rw [findPattern, List.find?_eq_none]
      intro b hb
      simp only [List.any_eq_true, not_exists, not_and, Bool.not_eq_true]
      exact fun p hp => (h b hb).2.2 p hp
    rw [autodetect, hS, hP, hF]

/-- With a non-empty hint whose filtered list is non-empty, `getBackend`
succeeds and its result is drawn from the filtered list. -/
theorem getBackend_mem_of_filter_ne_nil (registry : List LanguageBackend)
    (language : String) (fs : FS) (hlang : language ≠ "")
    (hne : registry.filter (fun b => matchesLanguage b language) ≠ []) :
    ∃ b, getBackend registry language fs = Except.ok b ∧
      b ∈ registry.filter (fun b => matchesLanguage b language) := by
  cases hf : registry.filter (fun b => matchesLanguage b language) with
  | nil => exact absurd hf hne
  | cons b0 tl =>
    cases tl with
    | nil =>
      refine ⟨b0, ?_, by simp [hf]⟩
      simp [getBackend, hlang, hf]
    | cons b1 rest =>
      cases hA : autodetect (b0 :: b1 :: rest) fs with
      | some b =>
        refine ⟨b, ?_, ?_⟩
        · simp [getBackend, hlang, hf, hA]
        · exact autodetect_mem hA
      | none =>
        refine ⟨b0, ?_, by simp [hf]⟩
        simp [getBackend, hlang, hf, hA]

/-! Claim theorems. -/

/-- C7: the Language Matcher is exact part-membership over hyphen-split
parts, never substring or prefix matching: `matchesLanguage` returns true
iff every part of the token occurs among the parts of the name or, failing
that, among the parts of the alias; the spec's concrete instances hold, and
a token part "python3" does not match a name part "python321". -/
theorem matchesLanguage_part_membership :
    (∀ (b : LanguageBackend) (language : String),
      matchesLanguage b language = true ↔
        ((∀ p ∈ splitParts language, p ∈ splitParts b.name) ∨
         (∀ p ∈ splitParts language, p ∈ splitParts b.aliasName))) ∧
    matchesLanguage ⟨"python-poetry", "", "", "", []⟩ "python-poetry" = true ∧
    matchesLanguage ⟨"python-poetry", "", "", "", []⟩ "python3" = false ∧
    matchesLanguage ⟨"python-poetry", "python-python3-poetry", "", "", []⟩ "python3" = true ∧
    matchesLanguage ⟨"python-poetry", "python-python3-poetry", "", "", []⟩ "python3-poetry" = true ∧
    matchesLanguage ⟨"python321", "", "", "", []⟩ "python3" = false :=
  ⟨matchesLanguage_iff, by decide, by decide, by decide, by decide, by decide⟩

/-- C8 counterexample: the all-hyphen token "-" is non-empty, its parts
(two empty strings) are absent from the name parts of `pythonBackend`, yet
with an empty alias the matcher returns true, because Go's
`strings.Split("", "-")` yields one empty part and every part of "-" is
that empty string. -/
theorem matchesLanguage_empty_alias_counterexample :
    pythonBackend.aliasName = "" ∧ ("-" : String) ≠ "" ∧
    (∃ p ∈ splitParts "-", p ∉ splitParts pythonBackend.name) ∧
    matchesLanguage pythonBackend "-" = true := by decide

/-- C8 amended: for a descriptor whose alias is empty and a language token
with at least one non-empty part, if some token part is absent from the
name parts then the alias step fails and `matchesLanguage` returns false. -/
theorem matchesLanguage_empty_alias_no_match
    (b : LanguageBackend) (language : String)
    (halias : b.aliasName = "")
    (habsent : ∃ p ∈ splitParts language, p ∉ splitParts b.name)
    (hnonempty : ∃ p ∈ splitParts language, p ≠ "") :
    matchesLanguage b language = false := by
  have hany : (splitParts language).any
      (fun lPart => !((splitParts b.name).contains lPart)) = true := by
    rw [List.any_eq_true]
    obtain ⟨p, hp, hnp⟩ := habsent
    exact ⟨p, hp, by simp [List.elem_iff, hnp]⟩
  simp only [matchesLanguage, hany, if_true]
  rw [halias]
  rw [List.all_eq_false]
  obtain ⟨p, hp, hpne⟩ := hnonempty
  refine ⟨p, hp, ?_⟩
  have hsplit : splitParts "" = [""] := rfl
  simp [hsplit, List.elem_iff, hpne]

/-- Witness for the amended C8 at a concrete input. -/
theorem matchesLanguage_empty_alias_no_match_witness :
    matchesLanguage pythonBackend "python-zzz" = false :=
  matchesLanguage_empty_alias_no_match pythonBackend "python-zzz" rfl
    ⟨"zzz", by decide, by decide⟩ ⟨"zzz", by decide, by decide⟩

/-- C3 counterexample: the hint "a" exactly equals `aBackend`'s full name,
yet `matchesLanguage` also accepts `abBackend` (whose name parts include
"a"), so with two matches autodetection runs and the order-based fallback
returns `abBackend`, not `aBackend`: the result is not the descriptor whose
name equals the hint, and filesystem probes can influence the outcome. -/
theorem getBackend_exact_name_counterexample :
    ("a" : String) ≠ "" ∧ aBackend ∈ [abBackend, aBackend] ∧ aBackend.name = "a" ∧
    getBackend [abBackend, aBackend] "a" fsNone = Except.ok abBackend ∧
    getBackend [abBackend, aBackend] "a" fsNone ≠ Except.ok aBackend := by decide

/-- C3 amended: for every non-empty hint that exactly equals some registered
descriptor's full name, if no other registered descriptor matches the hint
then `getBackend` returns that descriptor, regardless of filesystem state. -/
theorem getBackend_exact_name_unique_match
    (registry : List LanguageBackend) (language : String) (b : LanguageBackend)
    (hlang : language ≠ "") (hmem : b ∈ registry) (hname : b.name = language)
    (huniq : ∀ b' ∈ registry, matchesLanguage b' language = true → b' = b) :
    ∀ fs : FS, getBackend registry language fs = Except.ok b := by
  intro fs
  have hmatch : matchesLanguage b language = true :=
    hname ▸ matchesLanguage_name_self b
  have hne : registry.filter (fun x => matchesLanguage x language) ≠ [] := by
    intro h0
    rw [List.filter_eq_nil_iff] at h0
    exact absurd hmatch (by simpa using h0 b hmem)
  obtain ⟨c, hc, hcmem⟩ := getBackend_mem_of_filter_ne_nil registry language fs hlang hne
  rw [List.mem_filter] at hcmem
  rw [huniq c hcmem.1 (by simpa using hcmem.2)] at hc
  exact hc

/-- Witness for the amended C3 at a concrete input. -/
theorem getBackend_exact_name_unique_match_witness :
    getBackend [xOneBackend, xTwoBackend] "x-one" fsAll = Except.ok xOneBackend :=
  getBackend_exact_name_unique_match [xOneBackend, xTwoBackend] "x-one" xOneBackend
    (by decide) (by decide) (by decide) (by decide) fsAll

/-- C4: when a non-empty hint filters the registry down to exactly one
descriptor, `getBackend` returns it and the filesystem snapshot plays no
role: any two snapshots give the same outcome. -/
theorem getBackend_single_match_skips_autodetect
    (registry : List LanguageBackend) (language : String) (b : LanguageBackend)
    (hlang : language ≠ "")
    (hf : registry.filter (fun x => matchesLanguage x language) = [b]) :
    ∀ fs fs' : FS,
      getBackend registry language fs = Except.ok b ∧
      getBackend registry language fs = getBackend registry language fs' := by
  intro fs fs'
  constructor
  · simp [getBackend, hlang, hf]
  · simp [getBackend, hlang, hf]

/-- Witness for C4: the hint "b" matches only `abBackend`, and even a
snapshot where only `aBackend`'s files exist yields `abBackend`, identically
to the empty snapshot. -/
theorem getBackend_single_match_skips_autodetect_witness :
    getBackend [abBackend, aBackend] "b" fsAOnly = Except.ok abBackend ∧
    getBackend [abBackend, aBackend] "b" fsAOnly = getBackend [abBackend, aBackend] "b" fsNone :=
  getBackend_single_match_skips_autodetect [abBackend, aBackend] "b" abBackend
    (by decide) (by decide) fsAOnly fsNone

/-- C5: registry order is the tie-break on equally strong evidence: with an
empty hint, among descriptors whose specfile and lockfile both exist the
earliest one in registry order is returned. -/
theorem getBackend_registry_order_tiebreak
    (pre mid post : List LanguageBackend) (d1 d2 : LanguageBackend) (fs : FS)
    (hpre : ∀ b ∈ pre, ¬(fs.fsExists b.specfile = true ∧ fs.fsExists b.lockfile = true))
    (h1s : fs.fsExists d1.specfile = true) (h1l : fs.fsExists d1.lockfile = true)
    (_h2s : fs.fsExists d2.specfile = true) (_h2l : fs.fsExists d2.lockfile = true) :
    getBackend (pre ++ d1 :: (mid ++ d2 :: post)) "" fs = Except.ok d1 := by
  have hS : findStrong (pre ++ d1 :: (mid ++ d2 :: post)) fs = some d1 := by
    rw [findStrong, List.find?_append]
    have hpre' : pre.find?
        (fun b => fs.fsExists b.specfile && fs.fsExists b.lockfile) = none := by
      rw [List.find?_eq_none]
      intro b hb
      simp only [Bool.and_eq_true]
      exact hpre b hb
    rw [hpre', Option.none_or, List.find?_cons_of_pos _ (by simp [h1s, h1l])]
  simp [getBackend, autodetect, hS]

/-- Witness for C5 at a concrete input. -/
theorem getBackend_registry_order_tiebreak_witness :
    getBackend [d1Backend, d2Backend] "" fsAll = Except.ok d1Backend :=
  getBackend_registry_order_tiebreak [] [] [] d1Backend d2Backend fsAll
    (by simp) rfl rfl rfl rfl

/-- C6: when a non-empty hint matches two or more descriptors and none of
them has any filesystem evidence, `getBackend` returns the first descriptor
of the filtered list, without error. -/
theorem getBackend_narrowed_fallback
    (registry : List LanguageBackend) (language : String) (fs : FS)
    (b0 b1 : LanguageBackend) (rest : List LanguageBackend)
    (hlang : language ≠ "")
    (hf : registry.filter (fun b => matchesLanguage b language) = b0 :: b1 :: rest)
    (hnoev : ∀ b ∈ b0 :: b1 :: rest,
      fs.fsExists b.specfile = false ∧ fs.fsExists b.lockfile = false ∧
        ∀ p ∈ b.filenamePatterns, fs.patternExists p = false) :
    getBackend registry language fs = Except.ok b0 := by
  have hA : autodetect (b0 :: b1 :: rest) fs = none :=
    (autodetect_eq_none_iff _ _).mpr hnoev
  simp [getBackend, hlang, hf, hA]

/-- Witness for C6 at a concrete input. -/
theorem getBackend_narrowed_fallback_witness :
    getBackend [xOneBackend, xTwoBackend] "x" fsNone = Except.ok xOneBackend :=
  getBackend_narrowed_fallback [xOneBackend, xTwoBackend] "x" fsNone
    xOneBackend xTwoBackend [] (by decide) (by decide) (by decide)

/-- C1: with an empty hint autodetection runs the three passes in source
order over the full registry (specfile AND lockfile, then specfile OR
lockfile, then filename patterns), and with a multi-match hint the same
passes run over the filtered list with its head as fallback; an earlier pass
beats a later one regardless of registry position, so a later descriptor
with both specfile and lockfile existing beats an earlier one that has only
a pattern hit. -/
theorem getBackend_autodetect_pass_order :
    (∀ (registry : List LanguageBackend) (fs : FS),
      getBackend registry "" fs =
        match registry.find? (fun b => fs.fsExists b.specfile && fs.fsExists b.lockfile) with
        | some b => Except.ok b
        | none =>
          match registry.find? (fun b => fs.fsExists b.specfile || fs.fsExists b.lockfile) with
          | some b => Except.ok b
          | none =>
            match registry.find? (fun b => b.filenamePatterns.any (fun p => fs.patternExists p)) with
            | some b => Except.ok b
            | none => Except.error ResolveError.noLanguageDetected) ∧
    (∀ (registry : List LanguageBackend) (language : String) (fs : FS)
        (b0 b1 : LanguageBackend) (rest : List LanguageBackend),
      language ≠ "" →
      registry.filter (fun b => matchesLanguage b language) = b0 :: b1 :: rest →
      getBackend registry language fs =
        match autodetect (b0 :: b1 :: rest) fs with
        | some b => Except.ok b
        | none => Except.ok b0) ∧
    (∀ (pre mid post : List LanguageBackend) (d1 d2 : LanguageBackend) (fs : FS),
      (∀ b ∈ pre, ¬(fs.fsExists b.specfile = true ∧ fs.fsExists b.lockfile = true)) →
      (∀ b ∈ mid, ¬(fs.fsExists b.specfile = true ∧ fs.fsExists b.lockfile = true)) →
      fs.fsExists d1.specfile = false →
      fs.fsExists d1.lockfile = false →
      (∃ p ∈ d1.filenamePatterns, fs.patternExists p = true) →
      fs.fsExists d2.specfile = true →
      fs.fsExists d2.lockfile = true →
      getBackend (pre ++ d1 :: (mid ++ d2 :: post)) "" fs = Except.ok d2) := by
  refine ⟨?_, ?_, ?_⟩
  · intro registry fs
    cases h1 : registry.find? (fun b => fs.fsExists b.specfile && fs.fsExists b.lockfile) with
    | some b => simp [getBackend, autodetect, findStrong, h1]
    | none =>
      cases h2 : registry.find? (fun b => fs.fsExists b.specfile || fs.fsExists b.lockfile) with
      | some b => simp [getBackend, autodetect, findStrong, findPartial, h1, h2]
      | none =>
        cases h3 : registry.find? (fun b => b.filenamePatterns.any (fun p => fs.patternExists p)) with
        | some b => simp [getBackend, autodetect, findStrong, findPartial, findPattern, h1, h2, h3]
        | none => simp [getBackend, autodetect, findStrong, findPartial, findPattern, h1, h2, h3]
  · intro registry language fs b0 b1 rest hlang hf
    simp [getBackend, hlang, hf]
  · intro pre mid post d1 d2 fs hpre hmid h1s h1l hpat h2s h2l
    have key : findStrong (pre ++ d1 :: (mid ++ d2 :: post)) fs = some d2 := by
      rw [findStrong, List.find?_append]
      have hpre' : pre.find?
          (fun b => fs.fsExists b.specfile && fs.fsExists b.lockfile) = none := by
        rw [List.find?_eq_none]
        intro b hb
        simp only [Bool.and_eq_true]
        exact hpre b hb
      rw [hpre', Option.none_or, List.find?_cons_of_neg _ (by simp [h1s]),
        List.find?_append]
      have hmid' : mid.find?
          (fun b => fs.fsExists b.specfile && fs.fsExists b.lockfile) = none := by
        rw [List.find?_eq_none]
        intro b hb
        simp only [Bool.and_eq_true]
        exact hmid b hb
      rw [hmid', Option.none_or, List.find?_cons_of_pos _ (by simp [h2s, h2l])]
    simp [getBackend, autodetect, key]

/-- Witness for C1: `d1Backend` (earlier, only a pattern hit) loses to
`d2Backend` (later, specfile and lockfile exist). -/
theorem getBackend_autodetect_pass_order_witness :
    getBackend [d1Backend, d2Backend] "" fsD2Evidence = Except.ok d2Backend :=
  getBackend_autodetect_pass_order.2.2 [] [] [] d1Backend d2Backend fsD2Evidence
    (by simp) (by simp) (by decide) (by decide) ⟨"*.d1", by decide, by decide⟩
    (by decide) (by decide)

/-- C2: `getBackend` fails exactly when the hint is non-empty and matches
nothing (unknown-language error, message carrying the hint) or the hint is
empty and no descriptor has any evidence (no-language-detected error); in
every other case it returns a descriptor. -/
theorem getBackend_error_characterization
    (registry : List LanguageBackend) (language : String) (fs : FS) :
    ((∃ e, getBackend registry language fs = Except.error e) ↔
      ((language ≠ "" ∧ registry.filter (fun b => matchesLanguage b language) = []) ∨
       (language = "" ∧ ∀ b ∈ registry,
          fs.fsExists b.specfile = false ∧ fs.fsExists b.lockfile = false ∧
            ∀ p ∈ b.filenamePatterns, fs.patternExists p = false))) ∧
    (language ≠ "" → registry.filter (fun b => matchesLanguage b language) = [] →
      getBackend registry language fs = Except.error (ResolveError.unknownLanguage language) ∧
      errorMessage (ResolveError.unknownLanguage language) = "no such language: " ++ language) ∧
    (language = "" →
      (∀ b ∈ registry, fs.fsExists b.specfile = false ∧ fs.fsExists b.lockfile = false ∧
        ∀ p ∈ b.filenamePatterns, fs.patternExists p = false) →
      getBackend registry language fs = Except.error ResolveError.noLanguageDetected) ∧
    ((∀ e, getBackend registry language fs ≠ Except.error e) →
      ∃ b, getBackend registry language fs = Except.ok b) := by
  refine ⟨?_, ?_, ?_, ?_⟩
  · constructor
    · rintro ⟨e, he⟩
      by_cases hlang : language = ""
      · subst hlang
        right
        refine ⟨rfl, ?_⟩
        cases hA : autodetect registry fs with
        | some b => simp [getBackend, hA] at he
        | none => exact (autodetect_eq_none_iff registry fs).mp hA
      · left
        refine ⟨hlang, ?_⟩
        cases hfnil : registry.filter (fun b => matchesLanguage b language) with
        | nil => rfl
        | cons b0 tl =>
          obtain ⟨b, hb, _⟩ := getBackend_mem_of_filter_ne_nil registry language fs hlang
            (by simp [hfnil])
          rw [hb] at he
          cases he
    · rintro (⟨hlang, hf⟩ | ⟨hlang, hev⟩)
      · exact ⟨ResolveError.unknownLanguage language, by simp [getBackend, hlang, hf]⟩
      · subst hlang
        exact ⟨ResolveError.noLanguageDetected,
          by simp [getBackend, (autodetect_eq_none_iff registry fs).mpr hev]⟩
  · intro hlang hf
    exact ⟨by simp [getBackend, hlang, hf], rfl⟩
  · intro hlang hev
    subst hlang
    simp [getBackend, (autodetect_eq_none_iff registry fs).mpr hev]
  · intro habs
    cases hg : getBackend registry language fs with
    | ok b => exact ⟨b, rfl⟩
    | error e => exact absurd hg (habs e)

/-- Witness for C2: an unmatched hint fails with the unknown-language error
whose message carries the hint. -/
theorem getBackend_error_characterization_witness :
    getBackend [pythonBackend] "zzz" fsNone = Except.error (ResolveError.unknownLanguage "zzz") ∧
    errorMessage (ResolveError.unknownLanguage "zzz") = "no such language: " ++ "zzz" :=
  (getBackend_error_characterization [pythonBackend] "zzz" fsNone).2.1
    (by decide) (by decide)

/-- C9: resolution is deterministic and idempotent: two snapshots answering
every existence and pattern probe identically give identical outcomes, and
repeating a call with unchanged inputs yields the identical result. -/
theorem getBackend_deterministic
    (registry : List LanguageBackend) (language : String) (fs fs' : FS)
    (hex : ∀ path, fs.fsExists path = fs'.fsExists path)
    (hpat : ∀ pat, fs.patternExists pat = fs'.patternExists pat) :
    getBackend registry language fs = getBackend registry language fs' ∧
    getBackend registry language fs = getBackend registry language fs := by
  have hfs : fs = fs' := by
    obtain ⟨e1, p1⟩ := fs
    obtain ⟨e2, p2⟩ := fs'
    simp only [FS.mk.injEq]
    exact ⟨funext hex, funext hpat⟩
  rw [hfs]
  exact ⟨rfl, rfl⟩

/-- Witness for C9 on two syntactically distinct but probe-identical
snapshots. -/
theorem getBackend_deterministic_witness :
    getBackend [pythonBackend] "" fsNone = getBackend [pythonBackend] "" fsNone' ∧
    getBackend [pythonBackend] "" fsNone = getBackend [pythonBackend] "" fsNone :=
  getBackend_deterministic [pythonBackend] "" fsNone fsNone'
    (fun _ => rfl) (fun _ => rfl)

/-- C10: for every non-empty hint matching at least one registered
descriptor, `getBackend` never fails, and the descriptor it returns itself
matches the hint and is drawn from the hint-filtered list. -/
theorem getBackend_hint_consistent
    (registry : List LanguageBackend) (language : String) (fs : FS)
    (hlang : language ≠ "")
    (hmatch : ∃ b ∈ registry, matchesLanguage b language = true) :
    ∃ b, getBackend registry language fs = Except.ok b ∧
      matchesLanguage b language = true ∧
      b ∈ registry.filter (fun x => matchesLanguage x language) := by
  obtain ⟨b, hbmem, hbm⟩ := hmatch
  have hne : registry.filter (fun x => matchesLanguage x language) ≠ [] := by
    intro h0
    rw [List.filter_eq_nil_iff] at h0
    exact absurd hbm (by simpa using h0 b hbmem)
  obtain ⟨c, hc, hcmem⟩ := getBackend_mem_of_filter_ne_nil registry language fs hlang hne
  exact ⟨c, hc, by simpa using (List.mem_filter.mp hcmem).2, hcmem⟩

/-- Witness for C10 at a concrete input with two matching descriptors. -/
theorem getBackend_hint_consistent_witness :
    ∃ b, getBackend [xOneBackend, xTwoBackend] "x" fsAll = Except.ok b ∧
      matchesLanguage b "x" = true ∧
      b ∈ [xOneBackend, xTwoBackend].filter (fun x => matchesLanguage x "x") :=
  getBackend_hint_consistent [xOneBackend, xTwoBackend] "x" fsAll (by decide)
    ⟨xOneBackend, by decide, by decide⟩
